import Mathlib

/-!
Verification of the RPM-build task (`rpmbuild_task.py`).

The source is a single Python task that builds RPM packages inside Docker:
it scans an RPM spec file for `BuildRequires` lines, renders a Dockerfile,
builds an image, runs it as a container, streams `docker export` output
through a tar reader extracting `.rpm` files, and removes the container and
image in a `finally` block.

Python strings are modelled as `List Char`; the string primitives used by the
source (`strip`, `lower`, `lstrip`, `split`, `startswith`, `endswith`) are
given faithful models below. Subprocess steps are modelled by an environment
recording which external commands succeed, and the task body becomes a pure
function from that environment to a trace of invoked commands, the written
files, and the final result (`none` = success, `some e` = the raised error).
-/

namespace Rpmbuild

/-- Characters treated as whitespace by Python's `str.strip()` (ASCII subset,
which is all the source ever strips). -/
def isPySpace (c : Char) : Bool :=
  c == ' ' || c == '\t' || c == '\n' || c == '\x0b' || c == '\x0c' || c == '\r'

/-- Model of Python `s.strip()`: remove leading and trailing whitespace. -/
def pyStrip (l : List Char) : List Char :=
  ((l.dropWhile isPySpace).reverse.dropWhile isPySpace).reverse

/-- Model of Python `s.lower()` (ASCII case folding). -/
def pyLower (l : List Char) : List Char :=
  l.map Char.toLower

/-- Model of Python `s.lstrip(chars)`: remove leading characters that are
members of the character set `chars` (character-class strip, not literal
prefix removal). -/
def pyLstrip (chars : List Char) (l : List Char) : List Char :=
  l.dropWhile (fun c => chars.contains c)

/-- Model of Python `s.split(sep)` for a one-character separator: every
occurrence of the separator splits, empty pieces are kept, and the result is
never the empty list (`''.split(sep) == ['']`). -/
def pySplit (sep : Char) : List Char → List (List Char)
  | [] => [[]]
  | c :: rest =>
    if c == sep then
      [] :: pySplit sep rest
    else
      match pySplit sep rest with
      | [] => [[c]]
      | h :: t => (c :: h) :: t

/-- Model of Python `s.split(':', 1)[1]`: the text after the first colon, or
`none` when the line has no colon (in which case the source raises
`IndexError`). -/
def afterFirstColon : List Char → Option (List Char)
  | [] => none
  | c :: rest => if c == ':' then some rest else afterFirstColon rest

/-- Model of Python `sep.join(parts)`. -/
def pyJoin (sep : List Char) : List (List Char) → List Char
  | [] => []
  | [x] => x
  | x :: y :: rest => x ++ sep ++ pyJoin sep (y :: rest)

/-! ### SpecRequirementScanner (`convert_build_req` / `extract_build_reqs`) -/

/-- The per-piece transformation of `convert_build_req`: strip whitespace and
keep the text before the first space (`raw.strip().split(' ')[0]`). -/
def reqToken (raw : List Char) : List Char :=
  (pyStrip raw).takeWhile (fun c => c != ' ')

/-- Model of `RpmbuildTask.convert_build_req`: split the raw requirement text
on commas; for each piece, strip whitespace and keep the text before the
first space. -/
def convert_build_req (raw_build_reqs : List Char) : List (List Char) :=
  (pySplit ',' raw_build_reqs).map reqToken

/-- Model of `RpmbuildTask.extract_build_reqs`, over the list of lines of the
spec file: each line is stripped and lowercased; lines starting with
`buildrequires` contribute `convert_build_req` of the stripped text after the
first colon. A qualifying line with no colon makes the source raise
`IndexError`, modelled as `none`. -/
def extract_build_reqs : List (List Char) → Option (List (List Char))
  | [] => some []
  | line :: rest =>
    let l := pyLower (pyStrip line)
    if ("buildrequires".toList).isPrefixOf l then
      match afterFirstColon l with
      | none => none
      | some tail =>
        match extract_build_reqs rest with
        | none => none
        | some reqs => some (convert_build_req (pyStrip tail) ++ reqs)
    else
      extract_build_reqs rest

/-- Follows the claim's words, per line (verbatim-token reading): a line that
after whitespace-trimming case-insensitively begins with `buildrequires`
contributes, for the text after the first colon of the trimmed line, the
comma-separated pieces each whitespace-trimmed and truncated at the first
space, the token kept verbatim (original case); other lines contribute
nothing; a qualifying line with no colon has no such text (`none`). -/
def claimLineTokensVerbatim (line : List Char) : Option (List (List Char)) :=
  let t := pyStrip line
  if ("buildrequires".toList).isPrefixOf (pyLower t) then
    (afterFirstColon t).map (fun tail => (pySplit ',' tail).map reqToken)
  else
    some []

/-- Follows the claim's words (verbatim-token reading): the scanner's result
is the in-order concatenation of every line's contribution. -/
def claim_scan_verbatim : List (List Char) → Option (List (List Char))
  | [] => some []
  | line :: rest =>
    match claimLineTokensVerbatim line, claim_scan_verbatim rest with
    | some ts, some rs => some (ts ++ rs)
    | _, _ => none

/-- Follows the amended claim's words, per line: as in the verbatim reading,
except that the tokens come from the lowercased trimmed line (the scanner
lowercases each line before extracting). -/
def claimLineTokensLower (line : List Char) : Option (List (List Char)) :=
  let t := pyLower (pyStrip line)
  if ("buildrequires".toList).isPrefixOf t then
    (afterFirstColon t).map (fun tail => (pySplit ',' tail).map reqToken)
  else
    some []

/-- Follows the amended claim's words: the scanner's result is the in-order
concatenation of every line's contribution, with lowercased tokens. -/
def claim_scan_lower : List (List Char) → Option (List (List Char))
  | [] => some []
  | line :: rest =>
    match claimLineTokensLower line, claim_scan_lower rest with
    | some ts, some rs => some (ts ++ rs)
    | _, _ => none

/-! ### ArchiveArtifactExtractor filter (`build_rpm`, extraction loop) -/

/-- The shared archive-path prefix `'home/rpmuser/rpmbuild/'` passed to
`lstrip` in the source. -/
def rpmbuildRoot : List Char := "home/rpmuser/rpmbuild/".toList

/-- The first accepted archive-path prefix, `'home/rpmuser/rpmbuild/RPMS/'`. -/
def rpmsRoot : List Char := "home/rpmuser/rpmbuild/RPMS/".toList

/-- The second accepted archive-path prefix, `'home/rpmuser/rpmbuild/SRPMS/'`. -/
def srpmsRoot : List Char := "home/rpmuser/rpmbuild/SRPMS/".toList

/-- The accepted archive-entry suffix `'.rpm'`. -/
def rpmExt : List Char := ".rpm".toList

/-- The source's entry filter: the entry name starts with the RPMS or SRPMS
root and ends with `.rpm`. -/
def matchesRpmEntry (name : List Char) : Bool :=
  (rpmsRoot.isPrefixOf name || srpmsRoot.isPrefixOf name) && rpmExt.isSuffixOf name

/-- Model of the per-entry body of the extraction loop: a matching entry is
written at `name.lstrip('home/rpmuser/rpmbuild/')` provided that relative
path is non-empty; anything else produces no file. -/
def entryOutput (name : List Char) : Option (List Char) :=
  if matchesRpmEntry name then
    let rel := pyLstrip rpmbuildRoot name
    if rel.isEmpty then none else some rel
  else
    none

/-- Files written by the extraction loop for a full archive, in stream
order. -/
def extractOutputs (entries : List (List Char)) : List (List Char) :=
  entries.filterMap entryOutput

/-- Follows the spec's words (exact-prefix-strip reading): a matching entry is
written at its path with the literal prefix `'home/rpmuser/rpmbuild/'`
removed. -/
def specEntryOutput (name : List Char) : Option (List Char) :=
  if matchesRpmEntry name then some (name.drop rpmbuildRoot.length) else none

/-- Follows the spec's words: the outputs of a run are exactly the matching
entries with the literal shared prefix removed, in stream order. -/
def specExtractOutputs (entries : List (List Char)) : List (List Char) :=
  entries.filterMap specEntryOutput

/-! ### write_stream -/

/-- The read size used by `write_stream`: `1024 * 1024` bytes (1 MiB). -/
def writeStreamReadSize : Nat := 1024 * 1024

/-- Model of `RpmbuildTask.write_stream`: the source stream is a byte list and
each `r.read(size)` returns the next `min size remaining` bytes; the loop
reads then writes until a read returns no bytes. The result is the list of
written chunks, in write order. -/
def write_stream (src : List Nat) : List (List Nat) :=
  if src = [] then
    []
  else
    src.take writeStreamReadSize :: write_stream (src.drop writeStreamReadSize)
termination_by src.length
decreasing_by
  simp only [List.length_drop, writeStreamReadSize]
  have hpos : 0 < src.length := List.length_pos.mpr (by assumption)
  omega

/-! ### Dockerfile build-reqs block -/

/-- Model of the `build_reqs` argument to the Dockerfile generator:
`{'reqs': ' '.join(build_reqs)} if build_reqs else None`. `none` means the
block is absent from the rendered template context. -/
def dockerfile_build_reqs (build_reqs : List (List Char)) : Option (List Char) :=
  if build_reqs.isEmpty then none else some (pyJoin [' '] build_reqs)

/-- Follows the spec's words: the space-joined concatenation of the
requirement names in list order. -/
def specSpaceJoined (reqs : List (List Char)) : List Char :=
  (reqs.intersperse [' ']).flatten

/-! ### build_rpm pipeline (image build, container run, export, cleanup) -/

/-- External commands invoked by `build_rpm`, in invocation order. -/
inductive Cmd where
  /-- `docker build -t <image> <build_dir>` -/
  | buildImage
  /-- `docker run --name <container> <image>` -/
  | runContainer
  /-- `docker export <container>` (the extraction step) -/
  | exportContainer
  /-- `docker rm <container>` -/
  | removeContainer
  /-- `docker rmi <image>` -/
  | removeImage
deriving DecidableEq

/-- Fatal errors (`TaskError`) raised by `build_rpm`. -/
inductive BuildErr where
  /-- raised when `docker build` exits non-zero -/
  | imageBuildFailure
  /-- raised when `docker run` exits non-zero -/
  | containerRunFailure
  /-- raised when `docker export` exits non-zero (checked after the stream) -/
  | extractionFailure
deriving DecidableEq

/-- Environment of one `build_rpm` attempt: the exit status of each external
step, the `--keep-build-products` option, and the names of the entries of the
exported archive in stream order. -/
structure BuildEnv where
  buildOk : Bool
  runOk : Bool
  exportOk : Bool
  keepBuildProducts : Bool
  entries : List (List Char)
deriving DecidableEq

/-- Outcome of one `build_rpm` attempt: the raised error (`none` = success),
whether a container name was created, the external commands invoked in order,
and the relative paths of the files written under the output directory. -/
structure BuildOutcome where
  result : Option BuildErr
  containerCreated : Bool
  cmds : List Cmd
  filesWritten : List (List Char)
deriving DecidableEq

/-- The `try` block of `build_rpm`: build the image; on success create the
container name and run the container; on success stream the exported archive
(writing every matching entry) and only then check the export exit code.
Returns the raised error, whether a container name was created, the commands
invoked, and the files written. -/
def buildRpmTry (env : BuildEnv) :
    Option BuildErr × Bool × List Cmd × List (List Char) :=
  if !env.buildOk then
    (some .imageBuildFailure, false, [.buildImage], [])
  else if !env.runOk then
    (some .containerRunFailure, true, [.buildImage, .runContainer], [])
  else
    let files := extractOutputs env.entries
    if !env.exportOk then
      (some .extractionFailure, true, [.buildImage, .runContainer, .exportContainer], files)
    else
      (none, true, [.buildImage, .runContainer, .exportContainer], files)

/-- The `finally` block of `build_rpm`: remove the container if a container
name was created and `--keep-build-products` is unset, then remove the image
if `--keep-build-products` is unset. These removals use `subprocess.call` and
never raise. -/
def buildRpmCleanup (env : BuildEnv) (containerCreated : Bool) : List Cmd :=
  (if containerCreated && !env.keepBuildProducts then [.removeContainer] else []) ++
  (if !env.keepBuildProducts then [.removeImage] else [])

/-- Model of `RpmbuildTask.build_rpm`: the `try` block followed
unconditionally by the cleanup block, which preserves the `try` block's
result. -/
def build_rpm (env : BuildEnv) : BuildOutcome :=
  let (res, containerCreated, cmds, files) := buildRpmTry env
  ⟨res, containerCreated, cmds ++ buildRpmCleanup env containerCreated, files⟩

/-! ### execute -/

/-- Fatal errors raised by `execute`. -/
inductive ExecErr where
  /-- `TaskError('Unknown platform ...')` from the platform-table lookup -/
  | unknownPlatform
  /-- a `TaskError` propagated from `build_rpm` on some target -/
  | targetError (e : BuildErr)
deriving DecidableEq

/-- The per-target loop of `execute`: each target's `build_rpm` runs in turn;
a raised `TaskError` propagates, stopping the loop. Returns the propagated
error (if any) and the outcomes of the attempts actually performed. -/
def runTargets : List BuildEnv → Option BuildErr × List BuildOutcome
  | [] => (none, [])
  | t :: ts =>
    let o := build_rpm t
    match o.result with
    | some e => (some e, [o])
    | none =>
      let (e, os) := runTargets ts
      (e, o :: os)

/-- Model of `RpmbuildTask.execute`: look the configured platform id up in the
configured platform table (an association list modelling the Python dict);
a missing key raises `TaskError('Unknown platform ...')` before any target is
processed, otherwise every target is attempted in order. The returned list
holds the per-target attempts that were actually performed. -/
def execute (platforms : List (List Char × List Char)) (platformKey : List Char)
    (targets : List BuildEnv) : Option ExecErr × List BuildOutcome :=
  match platforms.lookup platformKey with
  | none => (some .unknownPlatform, [])
  | some _ =>
    match runTargets targets with
    | (some e, os) => (some (.targetError e), os)
    | (none, os) => (none, os)

/-! ### Helper lemmas: dropWhile, pyStrip, pySplit -/

theorem dropWhile_append_all {α : Type} {p : α → Bool} :
    ∀ (a b : List α), (∀ x ∈ a, p x = true) → (a ++ b).dropWhile p = b.dropWhile p
  | [], _, _ => rfl
  | c :: rest, b, h => by
    have hc : p c = true := h c (by simp)
    simpa [List.dropWhile_cons, hc] using
      dropWhile_append_all rest b (fun x hx => h x (by simp [hx]))

theorem dropWhile_append_left {α : Type} {p : α → Bool} :
    ∀ (a b : List α), a.dropWhile p ≠ [] → (a ++ b).dropWhile p = a.dropWhile p ++ b
  | [], _, h => absurd rfl h
  | c :: rest, b, h => by
    by_cases hc : p c = true
    · have h' : rest.dropWhile p ≠ [] := by simpa [List.dropWhile_cons, hc] using h
      simpa [List.dropWhile_cons, hc] using dropWhile_append_left rest b h'
    · simp [List.dropWhile_cons, hc]

theorem pyStrip_ws_append (w l : List Char) (hw : ∀ x ∈ w, isPySpace x = true) :
    pyStrip (w ++ l) = pyStrip l := by
  unfold pyStrip
  rw [dropWhile_append_all w l hw]

theorem pyStrip_append_ws (l w : List Char) (hw : ∀ x ∈ w, isPySpace x = true) :
    pyStrip (l ++ w) = pyStrip l := by
  unfold pyStrip
  by_cases h : l.dropWhile isPySpace = []
  · have hl : ∀ x ∈ l, isPySpace x := List.dropWhile_eq_nil_iff.mp h
    have hlw : (l ++ w).dropWhile isPySpace = [] :=
      List.dropWhile_eq_nil_iff.mpr (fun x hx => by
        rcases List.mem_append.mp hx with h1 | h2
        · exact hl x h1
        · exact hw x h2)
    rw [hlw, h]
  · rw [dropWhile_append_left l w h, List.reverse_append,
      dropWhile_append_all _ _ (fun x hx => hw x (List.mem_reverse.mp hx))]

theorem reqToken_ws_append (w l : List Char) (hw : ∀ x ∈ w, isPySpace x = true) :
    reqToken (w ++ l) = reqToken l := by
  unfold reqToken
  rw [pyStrip_ws_append w l hw]

theorem reqToken_append_ws (l w : List Char) (hw : ∀ x ∈ w, isPySpace x = true) :
    reqToken (l ++ w) = reqToken l := by
  unfold reqToken
  rw [pyStrip_append_ws l w hw]

theorem pySplit_ne_nil (sep : Char) : ∀ l : List Char, pySplit sep l ≠ []
  | [] => by simp [pySplit]
  | c :: rest => by
    by_cases hc : (c == sep) = true
    · simp [pySplit, hc]
    · cases h : pySplit sep rest with
      | nil => exact absurd h (pySplit_ne_nil sep rest)
      | cons a t => simp [pySplit, hc, h]

theorem pySplit_no_sep (sep : Char) :
    ∀ l : List Char, (∀ x ∈ l, (x == sep) = false) → pySplit sep l = [l]
  | [], _ => rfl
  | c :: rest, h => by
    have hc : (c == sep) = false := h c (by simp)
    have hr := pySplit_no_sep sep rest (fun x hx => h x (by simp [hx]))
    simp [pySplit, hc, hr]

theorem pySplit_ws_append (sep : Char) (a b : List Char) {h : List Char}
    {t : List (List Char)} (ha : ∀ x ∈ a, (x == sep) = false)
    (hb : pySplit sep b = h :: t) : pySplit sep (a ++ b) = (a ++ h) :: t := by
  induction a with
  | nil => simpa using hb
  | cons c rest ih =>
    have hc : (c == sep) = false := ha c (by simp)
    have hr := ih (fun x hx => ha x (by simp [hx]))
    simp [pySplit, hc, hr]

/-- Appends `w` to the last piece of a split result (used to relate splitting
before and after removing trailing whitespace). -/
def appendToLast (w : List Char) : List (List Char) → List (List Char)
  | [] => [w]
  | [x] => [x ++ w]
  | x :: y :: rest => x :: appendToLast w (y :: rest)

theorem appendToLast_cons_of_ne (w x : List Char) (l : List (List Char)) (h : l ≠ []) :
    appendToLast w (x :: l) = x :: appendToLast w l := by
  cases l with
  | nil => exact absurd rfl h
  | cons y rest => rfl

theorem pySplit_append_ws (sep : Char) (b w : List Char)
    (hw : ∀ x ∈ w, (x == sep) = false) :
    pySplit sep (b ++ w) = appendToLast w (pySplit sep b) := by
  induction b with
  | nil => simp [pySplit_no_sep sep w hw, pySplit, appendToLast]
  | cons c rest ih =>
    by_cases hc : (c == sep) = true
    · simp [pySplit, hc, ih,
        appendToLast_cons_of_ne w [] (pySplit sep rest) (pySplit_ne_nil sep rest)]
    · cases hrest : pySplit sep rest with
      | nil => exact absurd hrest (pySplit_ne_nil sep rest)
      | cons h1 t1 =>
        rw [hrest] at ih
        cases t1 with
        | nil =>
          simp [pySplit, hc, ih, hrest, appendToLast]
        | cons t2 t3 =>
          rw [appendToLast_cons_of_ne w h1 (t2 :: t3) (by simp)] at ih
          simp [pySplit, hc, ih, hrest,
            appendToLast_cons_of_ne w (c :: h1) (t2 :: t3) (by simp)]

theorem map_reqToken_appendToLast (w : List Char) (hw : ∀ x ∈ w, isPySpace x = true) :
    ∀ l : List (List Char), l ≠ [] → (appendToLast w l).map reqToken = l.map reqToken
  | [], h => absurd rfl h
  | [x], _ => by simp [appendToLast, reqToken_append_ws x w hw]
  | x :: y :: rest, _ => by
    have := map_reqToken_appendToLast w hw (y :: rest) (by simp)
    simp only [appendToLast, List.map_cons] at *
    simp [this]

theorem isPySpace_ne_comma (c : Char) (h : isPySpace c = true) : (c == ',') = false := by
  revert h
  unfold isPySpace
  simp only [Bool.or_eq_true, beq_iff_eq]
  rintro (((((rfl | rfl) | rfl) | rfl) | rfl) | rfl) <;> decide

theorem convert_build_req_ldrop (raw : List Char) :
    convert_build_req (raw.dropWhile isPySpace) = convert_build_req raw := by
  have hA : ∀ x ∈ raw.takeWhile isPySpace, isPySpace x = true :=
    fun x hx => List.mem_takeWhile_imp hx
  have hsep : ∀ x ∈ raw.takeWhile isPySpace, (x == ',') = false :=
    fun x hx => isPySpace_ne_comma x (hA x hx)
  cases hsplit : pySplit ',' (raw.dropWhile isPySpace) with
  | nil => exact absurd hsplit (pySplit_ne_nil ',' _)
  | cons h t =>
    have hd : raw.takeWhile isPySpace ++ raw.dropWhile isPySpace = raw :=
      List.takeWhile_append_dropWhile isPySpace raw
    have hs : pySplit ',' raw = (raw.takeWhile isPySpace ++ h) :: t := by
      have := pySplit_ws_append ',' (raw.takeWhile isPySpace) (raw.dropWhile isPySpace)
        hsep hsplit
      rwa [hd] at this
    unfold convert_build_req
    rw [hsplit, hs]
    simp [reqToken_ws_append _ h hA]

theorem convert_build_req_rdrop (l : List Char) :
    convert_build_req ((l.reverse.dropWhile isPySpace).reverse) = convert_build_req l := by
  have hW : ∀ x ∈ (l.reverse.takeWhile isPySpace).reverse, isPySpace x = true :=
    fun x hx => List.mem_takeWhile_imp (List.mem_reverse.mp hx)
  have hsep : ∀ x ∈ (l.reverse.takeWhile isPySpace).reverse, (x == ',') = false :=
    fun x hx => isPySpace_ne_comma x (hW x hx)
  have hl : (l.reverse.dropWhile isPySpace).reverse ++
      (l.reverse.takeWhile isPySpace).reverse = l := by
    rw [← List.reverse_append, List.takeWhile_append_dropWhile, List.reverse_reverse]
  conv_rhs => rw [← hl]
  unfold convert_build_req
  rw [pySplit_append_ws ',' _ _ hsep,
    map_reqToken_appendToLast _ hW _ (pySplit_ne_nil ',' _)]

theorem convert_build_req_pyStrip (raw : List Char) :
    convert_build_req (pyStrip raw) = convert_build_req raw := by
  have h1 : pyStrip raw = ((raw.dropWhile isPySpace).reverse.dropWhile isPySpace).reverse :=
    rfl
  rw [h1, convert_build_req_rdrop (raw.dropWhile isPySpace), convert_build_req_ldrop raw]

/-! ### Helper lemmas: prefix stripping in the extraction filter -/

theorem isPrefixOf_exists : ∀ (p n : List Char), p.isPrefixOf n = true → ∃ t, n = p ++ t
  | [], n, _ => ⟨n, rfl⟩
  | a :: as, [], h => by simp [List.isPrefixOf] at h
  | a :: as, b :: bs, h => by
    simp only [List.isPrefixOf, Bool.and_eq_true, beq_iff_eq] at h
    obtain ⟨rfl, h2⟩ := h
    obtain ⟨t, ht⟩ := isPrefixOf_exists as bs h2
    exact ⟨t, by simp [ht]⟩

theorem pyLstrip_root_append (c : Char) (hc : c ∉ rpmbuildRoot)
    (t : List Char) : pyLstrip rpmbuildRoot (rpmbuildRoot ++ c :: t) = c :: t := by
  unfold pyLstrip
  rw [dropWhile_append_all rpmbuildRoot (c :: t) (by decide)]
  simp [List.dropWhile_cons, hc]

theorem pyLstrip_exact_of_roots (n : List Char)
    (h : rpmsRoot.isPrefixOf n = true ∨ srpmsRoot.isPrefixOf n = true) :
    pyLstrip rpmbuildRoot n = n.drop rpmbuildRoot.length ∧
      pyLstrip rpmbuildRoot n ≠ [] := by
  rcases h with h | h
  · obtain ⟨t, rfl⟩ := isPrefixOf_exists rpmsRoot _ h
    have hsplit : rpmsRoot = rpmbuildRoot ++ 'R' :: "PMS/".toList := by decide
    rw [hsplit, List.append_assoc, List.cons_append,
      pyLstrip_root_append 'R' (by decide), List.drop_left]
    exact ⟨rfl, by simp⟩
  · obtain ⟨t, rfl⟩ := isPrefixOf_exists srpmsRoot _ h
    have hsplit : srpmsRoot = rpmbuildRoot ++ 'S' :: "RPMS/".toList := by decide
    rw [hsplit, List.append_assoc, List.cons_append,
      pyLstrip_root_append 'S' (by decide), List.drop_left]
    exact ⟨rfl, by simp⟩

theorem entryOutput_eq_spec (n : List Char) : entryOutput n = specEntryOutput n := by
  by_cases hm : matchesRpmEntry n = true
  · have hpre : rpmsRoot.isPrefixOf n = true ∨ srpmsRoot.isPrefixOf n = true := by
      have h := hm
      unfold matchesRpmEntry at h
      simp only [Bool.and_eq_true, Bool.or_eq_true] at h
      exact h.1
    obtain ⟨he, hne⟩ := pyLstrip_exact_of_roots n hpre
    have hemp : (pyLstrip rpmbuildRoot n).isEmpty = false := by
      cases hq : pyLstrip rpmbuildRoot n with
      | nil => exact absurd hq hne
      | cons a l => simp
    unfold entryOutput specEntryOutput
    rw [if_pos hm, if_pos hm]
    show (if (pyLstrip rpmbuildRoot n).isEmpty then none
      else some (pyLstrip rpmbuildRoot n)) = some (n.drop rpmbuildRoot.length)
    rw [hemp, he]
    simp
  · simp [entryOutput, specEntryOutput, hm]

theorem extractOutputs_eq_spec (entries : List (List Char)) :
    extractOutputs entries = specExtractOutputs entries := by
  induction entries with
  | nil => rfl
  | cons a l ih =>
    simp only [extractOutputs, specExtractOutputs, List.filterMap_cons] at *
    rw [entryOutput_eq_spec a, ih]

/-! ### Helper lemmas: joining -/

theorem pyJoin_space_eq_spec : ∀ reqs : List (List Char),
    pyJoin [' '] reqs = specSpaceJoined reqs
  | [] => rfl
  | [x] => by simp [pyJoin, specSpaceJoined, List.intersperse]
  | x :: y :: rest => by
    have ih := pyJoin_space_eq_spec (y :: rest)
    simp only [pyJoin, specSpaceJoined, List.intersperse, List.flatten_cons] at ih ⊢
    rw [ih, List.append_assoc]

/-! ### Claim theorems -/

/-- C1: for every successful pipeline run, the files written under the output
directory are exactly the exported archive entries whose path starts with one
of the two RPM roots and ends with `.rpm`, each at the entry's path with the
literal shared prefix `home/rpmuser/rpmbuild/` removed and all remaining
segments preserved; non-matching entries produce no file. -/
theorem c1_successful_run_outputs (env : BuildEnv)
    (h : (build_rpm env).result = none) :
    (build_rpm env).filesWritten = specExtractOutputs env.entries := by
  obtain ⟨b, r, x, k, es⟩ := env
  cases b
  · simp [build_rpm, buildRpmTry] at h
  · cases r
    · simp [build_rpm, buildRpmTry] at h
    · cases x
      · simp [build_rpm, buildRpmTry] at h
      · simp [build_rpm, buildRpmTry, extractOutputs_eq_spec es]

/-- C1 witness: the spec's end-to-end scenario; the run succeeds and the only
output is the `.rpm` entry at `RPMS/x86_64/pkg-1.0.rpm`. -/
theorem c1_witness :
    (build_rpm ⟨true, true, true, false,
        ["home/rpmuser/rpmbuild/RPMS/x86_64/pkg-1.0.rpm".toList,
         "home/rpmuser/rpmbuild/RPMS/x86_64/readme.txt".toList]⟩).result = none ∧
      (build_rpm ⟨true, true, true, false,
        ["home/rpmuser/rpmbuild/RPMS/x86_64/pkg-1.0.rpm".toList,
         "home/rpmuser/rpmbuild/RPMS/x86_64/readme.txt".toList]⟩).filesWritten =
        specExtractOutputs
          ["home/rpmuser/rpmbuild/RPMS/x86_64/pkg-1.0.rpm".toList,
           "home/rpmuser/rpmbuild/RPMS/x86_64/readme.txt".toList] ∧
      specExtractOutputs
          ["home/rpmuser/rpmbuild/RPMS/x86_64/pkg-1.0.rpm".toList,
           "home/rpmuser/rpmbuild/RPMS/x86_64/readme.txt".toList] =
        ["RPMS/x86_64/pkg-1.0.rpm".toList] :=
  ⟨by decide, c1_successful_run_outputs _ (by decide), by decide⟩

/-- C2: on every attempt, whichever step fails, container removal is invoked
exactly when a container name was created and the keep-build-products flag is
unset, and image removal is invoked exactly when the flag is unset; with the
flag set neither removal is invoked. -/
theorem c2_cleanup_invoked_iff (env : BuildEnv) :
    ((Cmd.removeContainer ∈ (build_rpm env).cmds) ↔
      ((build_rpm env).containerCreated = true ∧ env.keepBuildProducts = false)) ∧
    ((Cmd.removeImage ∈ (build_rpm env).cmds) ↔ env.keepBuildProducts = false) := by
  obtain ⟨b, r, x, k, es⟩ := env
  cases b <;> cases r <;> cases x <;> cases k <;>
    simp [build_rpm, buildRpmTry, buildRpmCleanup]

/-- C2 witness: instantiation at a concrete failing-run environment. -/
theorem c2_witness :
    ((Cmd.removeContainer ∈ (build_rpm ⟨true, false, true, false, []⟩).cmds) ↔
      ((build_rpm ⟨true, false, true, false, []⟩).containerCreated = true ∧
        (⟨true, false, true, false, []⟩ : BuildEnv).keepBuildProducts = false)) ∧
    ((Cmd.removeImage ∈ (build_rpm ⟨true, false, true, false, []⟩).cmds) ↔
      (⟨true, false, true, false, []⟩ : BuildEnv).keepBuildProducts = false) :=
  c2_cleanup_invoked_iff ⟨true, false, true, false, []⟩

/-- C3 counterexample: the scanner lowercases the whole line before token
extraction, so on the file `['BuildRequires: Foo']` it returns `['foo']`
while the claim's verbatim-token reading returns `['Foo']`. -/
theorem c3_counterexample :
    extract_build_reqs ["BuildRequires: Foo".toList] ≠
        claim_scan_verbatim ["BuildRequires: Foo".toList] ∧
      extract_build_reqs ["BuildRequires: Foo".toList] = some ["foo".toList] ∧
      claim_scan_verbatim ["BuildRequires: Foo".toList] = some ["Foo".toList] := by
  decide

/-- C3 (amended): for every file, the scanner returns, in file order, exactly
the package-name tokens of every line that after whitespace-trimming
case-insensitively begins with `buildrequires` — the text after the first
colon of the lowercased trimmed line is split on commas, each piece is
whitespace-trimmed and truncated at its first space — so tokens are the
lowercased text; other lines contribute nothing, and a keyword line with no
colon is an error. -/
theorem c3_scanner_eq_claim_lower :
    ∀ lines, extract_build_reqs lines = claim_scan_lower lines := by
  intro lines
  induction lines with
  | nil => rfl
  | cons line rest ih =>
    simp only [extract_build_reqs, claim_scan_lower, claimLineTokensLower]
    by_cases hp : ("buildrequires".toList).isPrefixOf (pyLower (pyStrip line)) = true
    · rw [if_pos hp, if_pos hp]
      cases hc : afterFirstColon (pyLower (pyStrip line)) with
      | none => simp
      | some tail =>
        simp only [Option.map_some]
        rw [← ih]
        cases he : extract_build_reqs rest with
        | none => rfl
        | some rs =>
          have hconv : convert_build_req (pyStrip tail) = (pySplit ',' tail).map reqToken := by
            rw [convert_build_req_pyStrip]
            rfl
          rw [hconv]
          rfl
    · rw [if_neg hp, if_neg hp, ih]
      cases he : claim_scan_lower rest with
      | none => rfl
      | some rs => simp

/-- C4: when image build and container run succeed but the export subprocess
exits non-zero, the attempt fails with the extraction error, yet every
matching archive entry was already written before the exit code was checked
(the stream is fully consumed first, and a partial extraction is never
reported as success). -/
theorem c4_export_exit_checked_after_stream (env : BuildEnv)
    (hb : env.buildOk = true) (hr : env.runOk = true) (hx : env.exportOk = false) :
    (build_rpm env).result = some .extractionFailure ∧
      (build_rpm env).filesWritten = extractOutputs env.entries := by
  obtain ⟨b, r, x, k, es⟩ := env
  cases hb
  cases hr
  cases hx
  simp [build_rpm, buildRpmTry]

/-- C4 witness: a failed export still leaves the matching `.rpm` entry
written. -/
theorem c4_witness :
    (⟨true, true, false, false, ["home/rpmuser/rpmbuild/RPMS/a.rpm".toList]⟩ :
        BuildEnv).buildOk = true ∧
      (⟨true, true, false, false, ["home/rpmuser/rpmbuild/RPMS/a.rpm".toList]⟩ :
        BuildEnv).runOk = true ∧
      (⟨true, true, false, false, ["home/rpmuser/rpmbuild/RPMS/a.rpm".toList]⟩ :
        BuildEnv).exportOk = false ∧
      ((build_rpm ⟨true, true, false, false,
          ["home/rpmuser/rpmbuild/RPMS/a.rpm".toList]⟩).result =
          some .extractionFailure ∧
        (build_rpm ⟨true, true, false, false,
          ["home/rpmuser/rpmbuild/RPMS/a.rpm".toList]⟩).filesWritten =
          extractOutputs ["home/rpmuser/rpmbuild/RPMS/a.rpm".toList]) ∧
      extractOutputs ["home/rpmuser/rpmbuild/RPMS/a.rpm".toList] =
        ["RPMS/a.rpm".toList] :=
  ⟨rfl, rfl, rfl, c4_export_exit_checked_after_stream _ rfl rfl rfl, by decide⟩

/-- C5: for every input stream, the written chunks concatenate to exactly the
source bytes and every read (hence every buffered chunk) is at most
1 MiB (`1024 * 1024`), regardless of total stream length. -/
theorem c5_write_stream_copies (src : List Nat) :
    (write_stream src).flatten = src ∧
      ∀ chunk ∈ write_stream src, chunk.length ≤ writeStreamReadSize := by
  have key : ∀ (n : Nat) (src : List Nat), src.length ≤ n →
      (write_stream src).flatten = src ∧
        ∀ chunk ∈ write_stream src, chunk.length ≤ writeStreamReadSize := by
    intro n
    induction n with
    | zero =>
      intro src hlen
      have hnil : src = [] := List.eq_nil_of_length_eq_zero (Nat.le_zero.mp hlen)
      subst hnil
      rw [write_stream]
      simp
    | succ n ih =>
      intro src hlen
      by_cases hsrc : src = []
      · subst hsrc
        rw [write_stream]
        simp
      · rw [write_stream, if_neg hsrc]
        have hone : 1 ≤ writeStreamReadSize := by norm_num [writeStreamReadSize]
        have hdrop : (src.drop writeStreamReadSize).length ≤ n := by
          rw [List.length_drop]
          omega
        obtain ⟨hflat, hmem⟩ := ih _ hdrop
        refine ⟨?_, ?_⟩
        · simp only [List.flatten_cons, hflat, List.take_append_drop]
        · intro chunk hchunk
          rcases List.mem_cons.mp hchunk with rfl | hmem2
          · rw [List.length_take]
            exact Nat.min_le_left _ _
          · exact hmem chunk hmem2
  exact key src.length src le_rfl

/-- C5 witness: instantiation at a concrete stream. -/
theorem c5_witness :
    (write_stream [10, 20, 30]).flatten = [10, 20, 30] ∧
      ∀ chunk ∈ write_stream [10, 20, 30], chunk.length ≤ writeStreamReadSize :=
  c5_write_stream_copies [10, 20, 30]

/-- C6 counterexample: with the keep-build-products flag set, a failed image
build aborts the attempt without any image removal being invoked, so the
claim's unconditional "still invokes image removal" is false. -/
theorem c6_counterexample :
    (build_rpm ⟨false, true, true, true, []⟩).result = some .imageBuildFailure ∧
      Cmd.removeImage ∉ (build_rpm ⟨false, true, true, true, []⟩).cmds := by
  decide

/-- C6 (amended): if the image build exits non-zero, the attempt aborts
before the run step — the run command is never invoked, no container name is
created, cleanup skips container removal — and, unless the
keep-build-products flag is set, cleanup still invokes image removal. -/
theorem c6_build_failure_aborts (env : BuildEnv) (hb : env.buildOk = false) :
    Cmd.runContainer ∉ (build_rpm env).cmds ∧
      (build_rpm env).containerCreated = false ∧
      Cmd.removeContainer ∉ (build_rpm env).cmds ∧
      (env.keepBuildProducts = false → Cmd.removeImage ∈ (build_rpm env).cmds) := by
  obtain ⟨b, r, x, k, es⟩ := env
  cases hb
  cases k <;> simp [build_rpm, buildRpmTry, buildRpmCleanup]

/-- C6 witness: concrete failed build with default retention. -/
theorem c6_witness :
    (⟨false, true, true, false, []⟩ : BuildEnv).buildOk = false ∧
      (Cmd.runContainer ∉ (build_rpm ⟨false, true, true, false, []⟩).cmds ∧
        (build_rpm ⟨false, true, true, false, []⟩).containerCreated = false ∧
        Cmd.removeContainer ∉ (build_rpm ⟨false, true, true, false, []⟩).cmds ∧
        ((⟨false, true, true, false, []⟩ : BuildEnv).keepBuildProducts = false →
          Cmd.removeImage ∈ (build_rpm ⟨false, true, true, false, []⟩).cmds)) ∧
      Cmd.removeImage ∈ (build_rpm ⟨false, true, true, false, []⟩).cmds :=
  ⟨rfl, c6_build_failure_aborts _ rfl,
    (c6_build_failure_aborts ⟨false, true, true, false, []⟩ rfl).2.2.2 rfl⟩

/-- C7: on every string starting with one of the two accepted roots, the
character-class strip used by the code equals exact literal removal of
`home/rpmuser/rpmbuild/` (the next character is an uppercase `R` or `S`, not
in the prefix's character set), and the result is non-empty, so the
non-empty guard never drops a matching entry. -/
theorem c7_lstrip_equals_exact (n : List Char)
    (h : rpmsRoot.isPrefixOf n = true ∨ srpmsRoot.isPrefixOf n = true) :
    pyLstrip rpmbuildRoot n = n.drop rpmbuildRoot.length ∧
      pyLstrip rpmbuildRoot n ≠ [] :=
  pyLstrip_exact_of_roots n h

/-- C7 witness: instantiation at a concrete SRPMS path. -/
theorem c7_witness :
    (rpmsRoot.isPrefixOf "home/rpmuser/rpmbuild/SRPMS/x.rpm".toList = true ∨
      srpmsRoot.isPrefixOf "home/rpmuser/rpmbuild/SRPMS/x.rpm".toList = true) ∧
    (pyLstrip rpmbuildRoot "home/rpmuser/rpmbuild/SRPMS/x.rpm".toList =
        ("home/rpmuser/rpmbuild/SRPMS/x.rpm".toList).drop rpmbuildRoot.length ∧
      pyLstrip rpmbuildRoot "home/rpmuser/rpmbuild/SRPMS/x.rpm".toList ≠ []) :=
  ⟨Or.inr (by decide), c7_lstrip_equals_exact _ (Or.inr (by decide))⟩

/-- C8: a spec file containing the line `BuildRequires: foo >= 1.2, bar`
yields exactly the requirement list `["foo", "bar"]`, in that order. -/
theorem c8_buildrequires_scenario :
    extract_build_reqs ["BuildRequires: foo >= 1.2, bar".toList] =
      some ["foo".toList, "bar".toList] := by
  decide

/-- C9: if the configured platform id is not a key of the configured platform
table, `execute` fails with the unknown-platform error and performs no
per-target work for any target. -/
theorem c9_unknown_platform_aborts (platforms : List (List Char × List Char))
    (platformKey : List Char) (targets : List BuildEnv)
    (h : platforms.lookup platformKey = none) :
    execute platforms platformKey targets = (some .unknownPlatform, []) := by
  unfold execute
  rw [h]

/-- C9 witness: a platform table holding only `centos7`, queried for
`centos6`, with one pending target. -/
theorem c9_witness :
    [("centos7".toList, "centos:7".toList)].lookup "centos6".toList = none ∧
      execute [("centos7".toList, "centos:7".toList)] "centos6".toList
        [⟨true, true, true, false, []⟩] = (some .unknownPlatform, []) :=
  ⟨by decide, c9_unknown_platform_aborts _ _ _ (by decide)⟩

/-- C10: the Dockerfile build-requirements block is supplied exactly when the
requirement list is non-empty, and then its value is the space-joined
concatenation of the requirement names in list order; for an empty list the
block is absent. -/
theorem c10_build_reqs_block (reqs : List (List Char)) :
    ((dockerfile_build_reqs reqs).isSome ↔ reqs ≠ []) ∧
      dockerfile_build_reqs reqs =
        if reqs = [] then none else some (specSpaceJoined reqs) := by
  cases reqs with
  | nil => simp [dockerfile_build_reqs]
  | cons a l =>
    refine ⟨by simp [dockerfile_build_reqs], ?_⟩
    simp [dockerfile_build_reqs, pyJoin_space_eq_spec]

end Rpmbuild
